import Mathlib

/-!
Verification of the HackRx document-intelligence pipeline.

This file gives a shallow embedding of the pure logic of the repository:

* `retrieval_service.py` — `RetrievalService.answer_query`: strategy dispatch
  over the router's decision, vector retrieval, and answer synthesis.  The LLM
  router, the vector retriever and the synthesizer are external services and
  are passed in as function parameters.
* `main.py` — `run_pipeline`: the `/hackrx/run` endpoint body, answering each
  question in order via the retrieval service.
* `processing_service.py` — `DocumentProcessor._create_chunks` (hierarchical
  parent/child chunking; the recursive character splitters are external and
  passed as functions) and `DocumentProcessor._extract_graph_entities`
  (batching in slices of 5, per-batch error recovery modelled by an
  `Option`-valued batch extractor, node deduplication over a Python `set` of
  `(id, type)` pairs modelled as a `Finset`, and relationship validation).

Python values coming back from the LLM as parsed JSON are modelled
structurally: a record is either not a dict, or a dict whose relevant fields
are `Option String` (`none` for a missing key or JSON `null`).  Python
truthiness of such a field (`None` and `""` are falsy) is `truthy`, and
Python's `x or 'Unknown'` idiom is `pyOr x "Unknown"`.  A raised exception in
fallible code is modelled by `none` / `Option`.
-/

namespace HackRx

/-- Truthiness of a maybe-missing string field, as Python evaluates it:
`None` and the empty string are falsy, every other string is truthy. -/
def truthy : Option String → Bool
  | none => false
  | some s => !s.isEmpty

/-- Python `v or d` for a maybe-missing string `v`: the string itself when
truthy, otherwise the fallback `d`. -/
def pyOr (v : Option String) (d : String) : String :=
  match v with
  | none => d
  | some s => if s.isEmpty then d else s

/-! ### Retrieval service (`retrieval_service.py`) -/

/-- A document returned by the vector retriever: `page_content` plus its
metadata dict (modelled as an association list). -/
structure RetrievedDoc where
  pageContent : String
  metadata : List (String × String)
deriving DecidableEq, Repr

/-- Result of `RetrievalService.answer_query`: the dict
`{"answer": final_answer, "sources": sources}`. -/
structure QueryResponse where
  answer : String
  sources : List (List (String × String))
deriving DecidableEq, Repr

/-- Embedding of `RetrievalService.answer_query` (retrieval_service.py,
lines 104–123).  `routeStrategy` is the strategy string of the `QueryRouter`
object returned by the router chain; `retrieve` is the vector retriever;
`synthesizeAnswer` is `_synthesize_answer` (query, context ↦ answer). -/
def answerQuery (routeStrategy : String → String)
    (retrieve : String → List RetrievedDoc)
    (synthesizeAnswer : String → String → String)
    (query : String) : QueryResponse :=
  let strategy := routeStrategy query
  if strategy = "vector_search" ∨ strategy = "hybrid_search" then
    let results := retrieve query
    let context := String.intercalate "\n\n" (results.map (fun d => d.pageContent))
    { answer := synthesizeAnswer query context
      sources := results.map (fun d => d.metadata) }
  else if strategy = "graph_qa" then
    { answer :=
        synthesizeAnswer query "Graph QA is not yet implemented. Please ask a broader question."
      sources := [] }
  else
    { answer := synthesizeAnswer query "Could not determine a valid retrieval strategy."
      sources := [] }

/-- The `QueryRouter` pydantic model bound to the router chain's structured
output: a strategy label plus the original question. -/
structure QueryRouter where
  strategy : String
  question : String
deriving DecidableEq, Repr

/-- Embedding of `answer_query` including the routing invocation itself
(retrieval_service.py, line 108): `routerChain` models
`self.router_chain.invoke`, with `none` standing for an invocation that does
not produce a usable `QueryRouter` (the structured-output parse raising on
malformed LLM output, or returning `None` so that `route.strategy` raises).
`answer_query` wraps the invocation in no `try/except`, so that failure
propagates out of the operation — modelled by the `none` result; on a
parsed response the dispatch of `answerQuery` runs on `route.strategy`. -/
def answerQueryChained (routerChain : String → Option QueryRouter)
    (retrieve : String → List RetrievedDoc)
    (synthesizeAnswer : String → String → String)
    (query : String) : Option QueryResponse :=
  match routerChain query with
  | none => none
  | some route => some (answerQuery (fun _ => route.strategy) retrieve synthesizeAnswer query)

/-! ### Endpoint (`main.py`, `models.py`) -/

/-- `models.HackRxRequest`: a document URL and a list of questions. -/
structure HackRxRequest where
  documents : String
  questions : List String
deriving DecidableEq, Repr

/-- `models.HackRxResponse`: only a list of answers. -/
structure HackRxResponse where
  answers : List String
deriving DecidableEq, Repr

/-- What `retrieval_service.answer_query` hands back to the endpoint:
`answer_data["answer"]` and `answer_data["sources"]`. -/
structure AnswerData where
  answer : String
  sources : List (List (String × String))
deriving DecidableEq, Repr

/-- Embedding of the body of `run_pipeline` (main.py, lines 56–80):
loop over `request.questions`, append `answer_data["answer"]` for each, and
wrap the accumulated list in a `HackRxResponse`.  `answerQueryF` is the
retrieval service. -/
def runPipeline (answerQueryF : String → AnswerData)
    (request : HackRxRequest) : HackRxResponse :=
  { answers := request.questions.foldl (fun acc q => acc ++ [(answerQueryF q).answer]) [] }

/-! ### Chunking (`processing_service.py`, `_create_chunks`) -/

/-- A langchain `Document` as `_create_chunks` uses it: page content plus the
metadata keys the code writes (`id` on parents, `parent_id` on children,
`source` on both). -/
structure ChunkDoc where
  pageContent : String
  id : Option String := none
  parentId : Option String := none
  source : Option String := none
deriving DecidableEq, Repr

/-- Embedding of `DocumentProcessor._create_chunks` (processing_service.py,
lines 107–125).  `pages` is the list of per-page markdown strings from
`parsed_json[0]["pages"]`; `parentSplit` and `childSplit` are the two
`RecursiveCharacterTextSplitter`s, passed as text-splitting functions.
Parent `i` gets metadata `id = "parent_i"`; every child cut from parent `i`
gets `parent_id = "parent_i"`; both carry the source file name. -/
def createChunks (parentSplit childSplit : String → List String)
    (pages : List String) (fileName : String) : List ChunkDoc × List ChunkDoc :=
  let fullText := String.intercalate "\n\n" pages
  let parentTexts := parentSplit fullText
  let parentDocs := parentTexts.enum.map (fun p =>
    { pageContent := p.2
      id := some ("parent_" ++ toString p.1)
      source := some fileName })
  let childDocs := parentTexts.enum.flatMap (fun p =>
    (childSplit p.2).map (fun t =>
      { pageContent := t
        parentId := some ("parent_" ++ toString p.1)
        source := some fileName }))
  (parentDocs, childDocs)

/-! ### Graph extraction (`processing_service.py`, `_extract_graph_entities`) -/

/-- A raw node record inside the parsed LLM JSON: either not a dict at all
(also covering a missing key, which `dict.get` returns as `None`), or a dict
with maybe-missing `id` and `type` fields. -/
inductive RawNode where
  | notDict : RawNode
  | dict (id type : Option String) : RawNode
deriving DecidableEq, Repr

/-- A raw relationship record inside the parsed LLM JSON. -/
inductive RawRel where
  | notDict : RawRel
  | dict (source target : RawNode) (type : Option String) : RawRel
deriving DecidableEq, Repr

/-- The parsed JSON of one successful batch: `graph_data.get('nodes', [])`
and `graph_data.get('relationships', [])`. -/
structure GraphData where
  nodes : List RawNode
  relationships : List RawRel
deriving Repr

/-- A langchain graph `Node` (string id plus type label). -/
structure LangchainNode where
  id : String
  type : String
deriving DecidableEq, Repr

/-- A langchain graph `Relationship`. -/
structure LangchainRelationship where
  source : LangchainNode
  target : LangchainNode
  type : String
deriving DecidableEq, Repr

/-- Slicing of the chunk list into batches of 5, as the loop
`for i in range(0, len(chunks), 5): batch = chunks[i:i+5]` produces them:
each step peels the next slice of (at most) five chunks off the front. -/
def toBatches {α : Type} : List α → List (List α)
  | [] => []
  | [a] => [[a]]
  | [a, b] => [[a, b]]
  | [a, b, c] => [[a, b, c]]
  | [a, b, c, d] => [[a, b, c, d]]
  | a :: b :: c :: d :: e :: rest => [a, b, c, d, e] :: toBatches rest

/-- One iteration of the batch loop of `_extract_graph_entities` (lines
140–153): `extractBatch` models `extractor.invoke` followed by the two
`.get` calls, with `none` standing for a raised exception (malformed JSON,
LLM error); a failed batch is skipped (`continue`) and contributes
nothing. -/
def batchStep (extractBatch : List ChunkDoc → Option GraphData)
    (acc : List RawNode × List RawRel) (batch : List ChunkDoc) :
    List RawNode × List RawRel :=
  match extractBatch batch with
  | some g => (acc.1 ++ g.nodes, acc.2 ++ g.relationships)
  | none => acc

/-- The whole batch loop: `all_nodes` and `all_relationships` accumulated
over the batches. -/
def runBatches (extractBatch : List ChunkDoc → Option GraphData)
    (chunks : List ChunkDoc) : List RawNode × List RawRel :=
  (toBatches chunks).foldl (batchStep extractBatch) ([], [])

/-- One step of the node-deduplication loop (lines 155–159): a dict record
with a truthy `id` inserts the pair `(node.get('id'), node.get('type') or
'Unknown')` into the set; everything else is ignored. -/
def nodeStep (acc : Finset (String × String)) (node : RawNode) : Finset (String × String) :=
  match node with
  | RawNode.notDict => acc
  | RawNode.dict id ty =>
    if truthy id then insert (id.getD "", pyOr ty "Unknown") acc else acc

/-- The `unique_nodes_set` built by the dedup loop over `all_nodes`. -/
def uniqueNodePairs (allNodes : List RawNode) : Finset (String × String) :=
  allNodes.foldl nodeStep ∅

/-- The final node list comprehension (line 161), which turns each pair of
the set into a `LangchainNode` (the `id is not None` guard never fires, ids
in the set being strings): modelled as the image of the pair set. -/
def dedupNodes (allNodes : List RawNode) : Finset LangchainNode :=
  (uniqueNodePairs allNodes).image (fun p => { id := p.1, type := p.2 })

/-- One step of the relationship loop (lines 163–189): skip non-dict records,
records whose source or target is not a dict, and records with a falsy
source id, target id or relationship type; otherwise append the relationship,
substituting `"Unknown"` for a falsy source or target node type. -/
def relStep (acc : List LangchainRelationship) (rel : RawRel) : List LangchainRelationship :=
  match rel with
  | RawRel.notDict => acc
  | RawRel.dict s t ty =>
    match s, t with
    | RawNode.dict sid sty, RawNode.dict tid tty =>
      if truthy sid && truthy tid && truthy ty then
        acc ++ [{ source := { id := sid.getD "", type := pyOr sty "Unknown" }
                  target := { id := tid.getD "", type := pyOr tty "Unknown" }
                  type := ty.getD "" }]
      else acc
    | _, _ => acc

/-- The `relationships` list built by the loop over `all_relationships`. -/
def buildRelationships (allRelationships : List RawRel) : List LangchainRelationship :=
  allRelationships.foldl relStep []

/-- Per-record summary of the relationship loop: the relationship a single
record contributes, or `none` when the record is dropped. -/
def relOf (rel : RawRel) : Option LangchainRelationship :=
  match rel with
  | RawRel.notDict => none
  | RawRel.dict s t ty =>
    match s, t with
    | RawNode.dict sid sty, RawNode.dict tid tty =>
      if truthy sid && truthy tid && truthy ty then
        some { source := { id := sid.getD "", type := pyOr sty "Unknown" }
               target := { id := tid.getD "", type := pyOr tty "Unknown" }
               type := ty.getD "" }
      else none
    | _, _ => none

/-- Per-record summary of the node-dedup loop: the `(id, type)` pair a single
record contributes, or `none` when the record is ignored. -/
def nodeKey (node : RawNode) : Option (String × String) :=
  match node with
  | RawNode.notDict => none
  | RawNode.dict id ty =>
    if truthy id then some (id.getD "", pyOr ty "Unknown") else none

/-- The graph document `_extract_graph_entities` returns. -/
structure GraphDocument where
  nodes : Finset LangchainNode
  relationships : List LangchainRelationship
  source : ChunkDoc
deriving DecidableEq

/-- Embedding of the whole of `DocumentProcessor._extract_graph_entities`
(lines 127–191): run the batch loop, deduplicate nodes, validate
relationships, and wrap the result in a single `GraphDocument` whose source
is `chunks[0]` — an access that raises `IndexError` on an empty chunk list,
modelled by `none`. -/
def extractGraphEntities (extractBatch : List ChunkDoc → Option GraphData)
    (chunks : List ChunkDoc) : Option (List GraphDocument) :=
  let acc := runBatches extractBatch chunks
  match chunks with
  | [] => none
  | c :: _ =>
    some [{ nodes := dedupNodes acc.1
            relationships := buildRelationships acc.2
            source := c }]

/-- A `(id, type)` pair of the deduplicated set, re-read as a raw dict record
(both fields present), for feeding the dedup step its own output. -/
def pairToRaw (p : String × String) : RawNode :=
  RawNode.dict (some p.1) (some p.2)

/-! ### Helper lemmas -/

theorem foldl_append_eq_map {β γ : Type} (g : β → γ) (l : List β) (acc : List γ) :
    l.foldl (fun a b => a ++ [g b]) acc = acc ++ l.map g := by
  induction l generalizing acc with
  | nil => simp
  | cons b bs ih => simp [ih]

theorem foldl_relStep_eq (l : List RawRel) (acc : List LangchainRelationship) :
    l.foldl relStep acc = acc ++ l.filterMap relOf := by
  induction l generalizing acc with
  | nil => simp
  | cons r rs ih =>
    rw [List.foldl_cons, List.filterMap_cons]
    cases r with
    | notDict => simpa [relStep, relOf] using ih acc
    | dict s t ty =>
      cases s with
      | notDict => simpa [relStep, relOf] using ih acc
      | dict sid sty =>
        cases t with
        | notDict => simpa [relStep, relOf] using ih acc
        | dict tid tty =>
          by_cases hc : (truthy sid && truthy tid && truthy ty) = true
          · simp [relStep, relOf, hc, ih]
          · simp [relStep, relOf, hc, ih]

theorem buildRelationships_eq_filterMap (l : List RawRel) :
    buildRelationships l = l.filterMap relOf := by
  rw [buildRelationships, foldl_relStep_eq]
  simp

theorem nodeStep_eq (acc : Finset (String × String)) (node : RawNode) :
    nodeStep acc node
      = match nodeKey node with | some p => insert p acc | none => acc := by
  cases node with
  | notDict => rfl
  | dict id ty =>
    simp only [nodeStep, nodeKey]
    split <;> rfl

theorem mem_foldl_nodeStep (l : List RawNode) (acc : Finset (String × String))
    (p : String × String) :
    p ∈ l.foldl nodeStep acc ↔ p ∈ acc ∨ p ∈ l.filterMap nodeKey := by
  induction l generalizing acc with
  | nil => simp
  | cons n ns ih =>
    simp only [List.foldl_cons, List.filterMap_cons, nodeStep_eq acc n]
    cases h : nodeKey n with
    | none => simp [ih]
    | some q =>
      simp only [ih, Finset.mem_insert, List.mem_cons]
      tauto

theorem mem_uniqueNodePairs (l : List RawNode) (p : String × String) :
    p ∈ uniqueNodePairs l ↔
      ∃ id ty, RawNode.dict id ty ∈ l ∧ truthy id = true
        ∧ p = (id.getD "", pyOr ty "Unknown") := by
  rw [uniqueNodePairs, mem_foldl_nodeStep]
  simp only [Finset.not_mem_empty, false_or, List.mem_filterMap]
  constructor
  · rintro ⟨n, hn, hk⟩
    cases n with
    | notDict => simp [nodeKey] at hk
    | dict id ty =>
      by_cases h : truthy id = true
      · simp only [nodeKey, h, if_true, Option.some.injEq] at hk
        exact ⟨id, ty, hn, h, hk.symm⟩
      · simp [nodeKey, h] at hk
  · rintro ⟨id, ty, hmem, htr, hp⟩
    exact ⟨RawNode.dict id ty, hmem, by simp [nodeKey, htr, hp]⟩

theorem mem_dedupNodes (l : List RawNode) (n : LangchainNode) :
    n ∈ dedupNodes l ↔ (n.id, n.type) ∈ uniqueNodePairs l := by
  rw [dedupNodes, Finset.mem_image]
  constructor
  · rintro ⟨p, hp, rfl⟩
    exact hp
  · intro h
    exact ⟨(n.id, n.type), h, rfl⟩

theorem pyOr_unknown_not_empty (v : Option String) : (pyOr v "Unknown").isEmpty = false := by
  cases v with
  | none => rfl
  | some s =>
    simp only [pyOr]
    by_cases h : s.isEmpty = true
    · simp only [h, if_true]
      decide
    · simp [h]

theorem mem_uniqueNodePairs_not_empty (l : List RawNode) (p : String × String)
    (hp : p ∈ uniqueNodePairs l) : p.1.isEmpty = false ∧ p.2.isEmpty = false := by
  rcases (mem_uniqueNodePairs l p).1 hp with ⟨id, ty, _, htr, rfl⟩
  constructor
  · cases id with
    | none => simp [truthy] at htr
    | some s => simpa [truthy] using htr
  · exact pyOr_unknown_not_empty ty

theorem pyOr_some_of_not_empty (s d : String) (h : s.isEmpty = false) :
    pyOr (some s) d = s := by
  simp [pyOr, h]

theorem toBatches_flatten {α : Type} (l : List α) : (toBatches l).flatten = l := by
  induction l using toBatches.induct with
  | case1 => rfl
  | case2 a => rfl
  | case3 a b => rfl
  | case4 a b c => rfl
  | case5 a b c d => rfl
  | case6 a b c d e rest ih => simp [toBatches, ih]

theorem toBatches_mem_spec {α : Type} (l : List α) (bt : List α) (hb : bt ∈ toBatches l) :
    bt ≠ [] ∧ bt.length ≤ 5 := by
  induction l using toBatches.induct with
  | case1 => simp [toBatches] at hb
  | case2 a =>
    simp only [toBatches, List.mem_singleton] at hb
    subst hb
    exact ⟨by simp, by simp⟩
  | case3 a b =>
    simp only [toBatches, List.mem_singleton] at hb
    subst hb
    exact ⟨by simp, by simp⟩
  | case4 a b c =>
    simp only [toBatches, List.mem_singleton] at hb
    subst hb
    exact ⟨by simp, by simp⟩
  | case5 a b c d =>
    simp only [toBatches, List.mem_singleton] at hb
    subst hb
    exact ⟨by simp, by simp⟩
  | case6 a b c d e rest ih =>
    simp only [toBatches, List.mem_cons] at hb
    rcases hb with rfl | hb
    · exact ⟨by simp, by simp⟩
    · exact ih hb

theorem toBatches_getD_length {α : Type} (l : List α) (i : Nat)
    (h : i + 1 < (toBatches l).length) : ((toBatches l).getD i []).length = 5 := by
  induction l using toBatches.induct generalizing i with
  | case1 => simp [toBatches] at h
  | case2 a => simp [toBatches] at h
  | case3 a b => simp [toBatches] at h
  | case4 a b c => simp [toBatches] at h
  | case5 a b c d => simp [toBatches] at h
  | case6 a b c d e rest ih =>
    cases i with
    | zero => rfl
    | succ j =>
      simp only [toBatches, List.getD_cons_succ]
      have h2 : j + 1 < (toBatches rest).length := by
        simp only [toBatches, List.length_cons] at h
        omega
      exact ih j h2

theorem foldl_batchStep_eq (f : List ChunkDoc → Option GraphData)
    (bs : List (List ChunkDoc)) (acc : List RawNode × List RawRel) :
    bs.foldl (batchStep f) acc
      = (acc.1 ++ (bs.filterMap f).flatMap GraphData.nodes,
         acc.2 ++ (bs.filterMap f).flatMap GraphData.relationships) := by
  induction bs generalizing acc with
  | nil => simp
  | cons bt bts ih =>
    rw [List.foldl_cons, List.filterMap_cons]
    cases h : f bt with
    | none => simp [batchStep, h, ih]
    | some g => simp [batchStep, h, ih]

theorem runBatches_eq (f : List ChunkDoc → Option GraphData) (chunks : List ChunkDoc) :
    runBatches f chunks
      = (((toBatches chunks).filterMap f).flatMap GraphData.nodes,
         ((toBatches chunks).filterMap f).flatMap GraphData.relationships) := by
  rw [runBatches, foldl_batchStep_eq]
  simp

/-! ### Claim theorems -/

/-- C1 counterexample: a malformed routing response — the router chain
failing to produce a parsed `QueryRouter` — propagates out of
`answer_query` (there is no `try/except` around the invocation): the
operation fails instead of degrading into the undetermined path with the
apology context. -/
theorem answerQuery_malformed_routing_counterexample :
    answerQueryChained (fun _ => none) (fun _ => []) (fun _ ctx => ctx) "q" = none
    ∧ answerQueryChained (fun _ => none) (fun _ => []) (fun _ ctx => ctx) "q"
      ≠ some { answer := "Could not determine a valid retrieval strategy."
               sources := [] } :=
  ⟨rfl, by decide⟩

/-- C1 (amended): when the router chain fails on a malformed routing
response, the failure propagates out of `answer_query` uncaught; for every
successfully parsed routing response, `answer_query` either dispatches on
one of the three recognized strategies (`vector_search`, `hybrid_search`,
`graph_qa`) or falls through to the undetermined path, handing the
synthesizer the fixed apology context with an empty source list — an
unrecognized strategy string never makes it fail. -/
theorem answerQueryChained_routing (routerChain : String → Option QueryRouter)
    (retrieve : String → List RetrievedDoc) (synth : String → String → String)
    (q : String) :
    (routerChain q = none → answerQueryChained routerChain retrieve synth q = none)
    ∧ (∀ route, routerChain q = some route →
        (route.strategy = "vector_search" ∨ route.strategy = "hybrid_search"
            ∨ route.strategy = "graph_qa")
        ∨ answerQueryChained routerChain retrieve synth q =
            some { answer := synth q "Could not determine a valid retrieval strategy."
                   sources := [] }) := by
  constructor
  · intro h
    simp [answerQueryChained, h]
  · intro route hr
    by_cases h1 : route.strategy = "vector_search"
    · exact Or.inl (Or.inl h1)
    by_cases h2 : route.strategy = "hybrid_search"
    · exact Or.inl (Or.inr (Or.inl h2))
    by_cases h3 : route.strategy = "graph_qa"
    · exact Or.inl (Or.inr (Or.inr h3))
    refine Or.inr ?_
    simp [answerQueryChained, hr, answerQuery, h1, h2, h3]

/-- Witness for C1 (amended): an unrecognized strategy string falls through
to the apology context, and a failed routing invocation propagates. -/
theorem answerQueryChained_routing_witness :
    answerQueryChained (fun _ => some { strategy := "bogus", question := "q" })
        (fun _ => []) (fun _ ctx => ctx) "q"
      = some { answer := "Could not determine a valid retrieval strategy."
               sources := [] }
    ∧ answerQueryChained (fun _ => none) (fun _ => []) (fun _ ctx => ctx) "q2" = none := by
  constructor
  · exact ((answerQueryChained_routing
      (fun _ => some { strategy := "bogus", question := "q" })
      (fun _ => []) (fun _ ctx => ctx) "q").2
      { strategy := "bogus", question := "q" } rfl).resolve_left (by decide)
  · exact (answerQueryChained_routing (fun _ => none) (fun _ => [])
      (fun _ ctx => ctx) "q2").1 rfl

/-- C7: when the routing decision is `graph_qa`, `answer_query` hands the
synthesizer the fixed placeholder context with an empty source list, its
result carries that empty source list, and it does not touch the vector
retriever (the result is the same for any retriever). -/
theorem answerQuery_graph_qa_stub (router : String → String)
    (retrieve retrieve₂ : String → List RetrievedDoc)
    (synth : String → String → String) (q : String)
    (h : router q = "graph_qa") :
    answerQuery router retrieve synth q =
      { answer := synth q "Graph QA is not yet implemented. Please ask a broader question."
        sources := [] }
    ∧ (answerQuery router retrieve synth q).sources = []
    ∧ answerQuery router retrieve synth q = answerQuery router retrieve₂ synth q := by
  have hv : ¬(router q = "vector_search" ∨ router q = "hybrid_search") := by
    rw [h]
    simp
  refine ⟨?_, ?_, ?_⟩ <;> simp [answerQuery, hv, h]

/-- Witness for C7 at a concrete router, retriever and synthesizer. -/
theorem answerQuery_graph_qa_stub_witness :
    answerQuery (fun _ => "graph_qa")
        (fun _ => [{ pageContent := "c", metadata := [("k", "v")] }])
        (fun _ ctx => ctx) "who" =
      { answer := "Graph QA is not yet implemented. Please ask a broader question."
        sources := [] } :=
  (answerQuery_graph_qa_stub (fun _ => "graph_qa")
    (fun _ => [{ pageContent := "c", metadata := [("k", "v")] }])
    (fun _ => []) (fun _ ctx => ctx) "who" rfl).1

/-- C8 (amended): `run_pipeline` returns exactly one answer per question, in
order, the i-th answer being the synthesized answer to the i-th question;
the source metadata the retrieval service collects per question is discarded
— the response is unchanged when the sources change, as long as the answers
agree. -/
theorem runPipeline_answers_in_order (f g : String → AnswerData) (req : HackRxRequest)
    (h : ∀ q, (f q).answer = (g q).answer) :
    (runPipeline f req).answers = req.questions.map (fun q => (f q).answer)
    ∧ (runPipeline f req).answers.length = req.questions.length
    ∧ runPipeline f req = runPipeline g req := by
  have key : ∀ k : String → AnswerData,
      (runPipeline k req).answers = req.questions.map (fun q => (k q).answer) := by
    intro k
    show req.questions.foldl (fun acc q => acc ++ [(k q).answer]) [] = _
    simpa using foldl_append_eq_map (fun q => (k q).answer) req.questions []
  refine ⟨key f, ?_, ?_⟩
  · rw [key f]
    simp
  · have hmap : req.questions.map (fun q => (f q).answer)
        = req.questions.map (fun q => (g q).answer) :=
      List.map_congr_left (fun q _ => h q)
    calc runPipeline f req = ⟨(runPipeline f req).answers⟩ := rfl
      _ = ⟨(runPipeline g req).answers⟩ := by rw [key f, key g, hmap]
      _ = runPipeline g req := rfl

/-- Witness for C8 (amended) at a concrete oracle and request. -/
theorem runPipeline_answers_in_order_witness :
    (runPipeline (fun _ => { answer := "a", sources := [[("source", "doc.pdf")]] })
        { documents := "u", questions := ["q1", "q2"] }).answers = ["a", "a"]
    ∧ runPipeline (fun _ => { answer := "a", sources := [[("source", "doc.pdf")]] })
        { documents := "u", questions := ["q1", "q2"] }
      = runPipeline (fun _ => { answer := "a", sources := [] })
        { documents := "u", questions := ["q1", "q2"] } := by
  have h := runPipeline_answers_in_order
    (fun _ => { answer := "a", sources := [[("source", "doc.pdf")]] })
    (fun _ => { answer := "a", sources := [] })
    { documents := "u", questions := ["q1", "q2"] } (fun _ => rfl)
  exact ⟨by rw [h.1]; rfl, h.2.2⟩

/-- C8 counterexample: two runs in which the retrieval service collects
different source metadata (one nonempty, one empty) for the same question
return identical responses, so the endpoint's answers are not accompanied by
the per-question source metadata. -/
theorem runPipeline_drops_sources_counterexample :
    runPipeline (fun _ => { answer := "a", sources := [[("source", "doc.pdf")]] })
        { documents := "u", questions := ["q"] }
      = runPipeline (fun _ => { answer := "a", sources := [] })
        { documents := "u", questions := ["q"] }
    ∧ ((fun _ => ({ answer := "a", sources := [[("source", "doc.pdf")]] } : AnswerData)) "q").sources
      ≠ ((fun _ => ({ answer := "a", sources := [] } : AnswerData)) "q").sources :=
  ⟨rfl, by decide⟩

/-- C9: on an empty child-chunk list `_extract_graph_entities` fails (the
unguarded `chunks[0]` raises `IndexError`, modelled by `none`) instead of
returning a graph document with zero nodes and relationships, while on any
nonempty chunk list it returns a result. -/
theorem extractGraphEntities_empty_raises (f : List ChunkDoc → Option GraphData) :
    extractGraphEntities f [] = none
    ∧ ∀ c cs, (extractGraphEntities f (c :: cs)).isSome = true :=
  ⟨rfl, fun _ _ => rfl⟩

/-- C10: the endpoint's response does not depend on the request's
`documents` field — two requests with the same questions and different
`documents` values yield the same response. -/
theorem runPipeline_ignores_documents (f : String → AnswerData) (qs : List String)
    (d₁ d₂ : String) :
    runPipeline f { documents := d₁, questions := qs }
      = runPipeline f { documents := d₂, questions := qs } := rfl

/-- C2: the relationship loop processes each record independently
(`buildRelationships` is the `filterMap` of the per-record function
`relOf`): a record `relOf` drops contributes nothing at all — the output on
the surrounding list is unchanged; a non-dict record, a record with a
non-dict (or missing) source or target, and a record with a falsy source
id, target id or type are exactly the dropped ones; and a record with all
three present is kept, with `"Unknown"` substituted for a falsy source or
target node type. -/
theorem buildRelationships_drop_or_keep (l₁ l₂ : List RawRel) (r : RawRel)
    (sid sty tid tty ty : Option String) :
    (relOf r = none →
      buildRelationships (l₁ ++ r :: l₂) = buildRelationships (l₁ ++ l₂))
    ∧ relOf RawRel.notDict = none
    ∧ (∀ t oty, relOf (RawRel.dict RawNode.notDict t oty) = none)
    ∧ (∀ s oty, relOf (RawRel.dict s RawNode.notDict oty) = none)
    ∧ (r = RawRel.dict (RawNode.dict sid sty) (RawNode.dict tid tty) ty →
        ((truthy sid = false ∨ truthy tid = false ∨ truthy ty = false) →
          relOf r = none)
        ∧ (truthy sid = true → truthy tid = true → truthy ty = true →
            buildRelationships (l₁ ++ r :: l₂) =
              buildRelationships l₁
                ++ { source := { id := sid.getD "", type := pyOr sty "Unknown" },
                     target := { id := tid.getD "", type := pyOr tty "Unknown" },
                     type := ty.getD "" } :: buildRelationships l₂)) := by
  refine ⟨?_, rfl, fun t oty => by cases t <;> rfl, fun s oty => by cases s <;> rfl, ?_⟩
  · intro h
    simp [buildRelationships_eq_filterMap, List.filterMap_append, List.filterMap_cons, h]
  · rintro rfl
    constructor
    · intro h
      rcases h with h | h | h <;> simp [relOf, h]
    · intro h1 h2 h3
      have hr : relOf (RawRel.dict (RawNode.dict sid sty) (RawNode.dict tid tty) ty)
          = some { source := { id := sid.getD "", type := pyOr sty "Unknown" },
                   target := { id := tid.getD "", type := pyOr tty "Unknown" },
                   type := ty.getD "" } := by
        simp [relOf, h1, h2, h3]
      simp [buildRelationships_eq_filterMap, List.filterMap_append, List.filterMap_cons, hr]

/-- Witness for C2: a non-dict record is dropped entirely, and a valid
record whose source node type is missing is kept with type `"Unknown"`. -/
theorem buildRelationships_drop_or_keep_witness :
    buildRelationships [RawRel.notDict,
        RawRel.dict (RawNode.dict (some "A") none) (RawNode.dict (some "B") (some "T"))
          (some "REL")]
      = buildRelationships [RawRel.dict (RawNode.dict (some "A") none)
          (RawNode.dict (some "B") (some "T")) (some "REL")]
    ∧ buildRelationships [RawRel.dict (RawNode.dict (some "A") none)
          (RawNode.dict (some "B") (some "T")) (some "REL")]
      = [{ source := { id := "A", type := "Unknown" },
           target := { id := "B", type := "T" },
           type := "REL" }] := by
  constructor
  · exact (buildRelationships_drop_or_keep []
      [RawRel.dict (RawNode.dict (some "A") none) (RawNode.dict (some "B") (some "T"))
        (some "REL")]
      RawRel.notDict none none none none none).1 rfl
  · have h := ((buildRelationships_drop_or_keep [] []
      (RawRel.dict (RawNode.dict (some "A") none) (RawNode.dict (some "B") (some "T"))
        (some "REL"))
      (some "A") none (some "B") (some "T") (some "REL")).2.2.2.2 rfl).2
      (by decide) (by decide) (by decide)
    exact h.trans (by decide)

/-- C3: the node-dedup step yields exactly one output node per distinct
`(id, type)` pair among the dict records with a truthy id, with type
`"Unknown"` substituted for a missing or falsy type; and two records
sharing an id but with different (post-substitution) types yield two
distinct output nodes. -/
theorem dedupNodes_characterization (l : List RawNode) :
    (∀ n : LangchainNode, n ∈ dedupNodes l ↔
        ∃ id ty, RawNode.dict id ty ∈ l ∧ truthy id = true
          ∧ n = { id := id.getD "", type := pyOr ty "Unknown" })
    ∧ (∀ id ty₁ ty₂, RawNode.dict id ty₁ ∈ l → RawNode.dict id ty₂ ∈ l →
        truthy id = true → pyOr ty₁ "Unknown" ≠ pyOr ty₂ "Unknown" →
        2 ≤ (dedupNodes l).card) := by
  constructor
  · intro n
    rw [mem_dedupNodes, mem_uniqueNodePairs]
    constructor
    · rintro ⟨id, ty, hm, ht, hp⟩
      refine ⟨id, ty, hm, ht, ?_⟩
      cases n
      simp only [Prod.mk.injEq] at hp
      simp [hp.1, hp.2]
    · rintro ⟨id, ty, hm, ht, rfl⟩
      exact ⟨id, ty, hm, ht, rfl⟩
  · intro id ty₁ ty₂ h₁ h₂ htr hne
    have m₁ : ({ id := id.getD "", type := pyOr ty₁ "Unknown" } : LangchainNode)
        ∈ dedupNodes l := by
      rw [mem_dedupNodes, mem_uniqueNodePairs]
      exact ⟨id, ty₁, h₁, htr, rfl⟩
    have m₂ : ({ id := id.getD "", type := pyOr ty₂ "Unknown" } : LangchainNode)
        ∈ dedupNodes l := by
      rw [mem_dedupNodes, mem_uniqueNodePairs]
      exact ⟨id, ty₂, h₂, htr, rfl⟩
    have hd : ({ id := id.getD "", type := pyOr ty₁ "Unknown" } : LangchainNode)
        ≠ { id := id.getD "", type := pyOr ty₂ "Unknown" } := by
      intro he
      exact hne (congrArg LangchainNode.type he)
    have := Finset.one_lt_card.mpr ⟨_, m₁, _, m₂, hd⟩
    omega

/-- Witness for C3: two records with the same id and different types produce
two distinct nodes (the set has at least two elements). -/
theorem dedupNodes_characterization_witness :
    (({ id := "a", type := "T" } : LangchainNode)
        ∈ dedupNodes [RawNode.dict (some "a") (some "T"),
            RawNode.dict (some "a") (some "U")])
    ∧ 2 ≤ (dedupNodes [RawNode.dict (some "a") (some "T"),
        RawNode.dict (some "a") (some "U")]).card := by
  have h := dedupNodes_characterization
    [RawNode.dict (some "a") (some "T"), RawNode.dict (some "a") (some "U")]
  constructor
  · exact (h.1 { id := "a", type := "T" }).2
      ⟨some "a", some "T", by simp, by decide, by decide⟩
  · exact h.2 (some "a") (some "T") (some "U") (by simp) (by simp) (by decide) (by decide)

/-- C5: the node-dedup step is idempotent — feeding the dedup step any list
enumeration of its own output (each pair read back as a node record) yields
the same set of unique `(id, type)` pairs. -/
theorem dedupNodes_idempotent (l : List RawNode) (out : List (String × String))
    (hout : ∀ p, p ∈ out ↔ p ∈ uniqueNodePairs l) :
    uniqueNodePairs (out.map pairToRaw) = uniqueNodePairs l := by
  ext p
  rw [mem_uniqueNodePairs]
  constructor
  · rintro ⟨id, ty, hmem, htr, rfl⟩
    rcases List.mem_map.1 hmem with ⟨q, hq, hpq⟩
    have hq2 : q ∈ uniqueNodePairs l := (hout q).1 hq
    have hne := mem_uniqueNodePairs_not_empty l q hq2
    rcases q with ⟨q1, q2⟩
    simp only [pairToRaw, RawNode.dict.injEq] at hpq
    rw [← hpq.1, ← hpq.2]
    simpa [pyOr_some_of_not_empty _ _ hne.2] using hq2
  · intro hp
    refine ⟨some p.1, some p.2, ?_, ?_, ?_⟩
    · exact List.mem_map.2 ⟨p, (hout p).2 hp, rfl⟩
    · have hne := mem_uniqueNodePairs_not_empty l p hp
      simp [truthy, hne.1]
    · have hne := mem_uniqueNodePairs_not_empty l p hp
      simp [pyOr_some_of_not_empty _ _ hne.2]

/-- Witness for C5 at a concrete extracted node list and enumeration of its
deduplicated output. -/
theorem dedupNodes_idempotent_witness :
    uniqueNodePairs ([(("a" : String), ("T" : String))].map pairToRaw)
      = uniqueNodePairs [RawNode.dict (some "a") (some "T")] :=
  dedupNodes_idempotent [RawNode.dict (some "a") (some "T")] [("a", "T")] (by
    intro p
    rw [mem_uniqueNodePairs]
    constructor
    · intro hp
      simp only [List.mem_singleton] at hp
      exact ⟨some "a", some "T", by simp, by decide, by simp [hp]; decide⟩
    · rintro ⟨id, ty, hmem, htr, rfl⟩
      simp only [List.mem_singleton, RawNode.dict.injEq] at hmem
      rw [hmem.1, hmem.2]
      simp only [List.mem_singleton]
      decide)

/-- C6: every child chunk's `parent_id` metadata is the `id` of some parent
chunk produced in the same run (of the form `parent_i` with `i` an index
into the produced parent list); no child references a nonexistent
parent. -/
theorem createChunks_child_resolves (pS cS : String → List String) (pages : List String)
    (name : String) (c : ChunkDoc)
    (hc : c ∈ (createChunks pS cS pages name).2) :
    (∃ p ∈ (createChunks pS cS pages name).1, p.id = c.parentId)
    ∧ (∃ i, i < (createChunks pS cS pages name).1.length
        ∧ c.parentId = some ("parent_" ++ toString i)) := by
  simp only [createChunks] at hc ⊢
  rw [List.mem_flatMap] at hc
  rcases hc with ⟨pr, hpr, hc⟩
  rw [List.mem_map] at hc
  rcases hc with ⟨t, _, rfl⟩
  constructor
  · refine ⟨{ pageContent := pr.2, id := some ("parent_" ++ toString pr.1), source := some name }, ?_, rfl⟩
    exact List.mem_map.2 ⟨pr, hpr, rfl⟩
  · refine ⟨pr.1, ?_, rfl⟩
    rcases List.mem_iff_getElem.1 hpr with ⟨j, hj, hpr2⟩
    rw [List.getElem_enum] at hpr2
    have hjeq : pr.1 = j := by rw [← hpr2]
    rw [List.length_map]
    rw [hjeq]
    simpa using hj

/-- Witness for C6 at concrete splitters, pages and child chunk. -/
theorem createChunks_child_resolves_witness :
    ∃ p ∈ (createChunks (fun s => [s]) (fun s => [s]) ["x"] "f").1,
      p.id = ({ pageContent := "x", parentId := some "parent_0", source := some "f" } : ChunkDoc).parentId :=
  (createChunks_child_resolves (fun s => [s]) (fun s => [s]) ["x"] "f"
    { pageContent := "x", parentId := some "parent_0", source := some "f" }
    (by decide)).1

/-- C4: graph extraction partitions the chunk list into consecutive batches
of 5 (each batch nonempty and of size at most 5, every batch but the last of
size exactly 5, and the batches concatenating back to the original list),
and the accumulated raw nodes and relationships are exactly those of the
successful batches, in order — a batch on which the extractor fails
contributes nothing. -/
theorem extraction_batches_spec (f : List ChunkDoc → Option GraphData)
    (chunks : List ChunkDoc) :
    (toBatches chunks).flatten = chunks
    ∧ (∀ bt ∈ toBatches chunks, bt ≠ [] ∧ bt.length ≤ 5)
    ∧ (∀ i, i + 1 < (toBatches chunks).length →
        ((toBatches chunks).getD i []).length = 5)
    ∧ runBatches f chunks =
        (((toBatches chunks).filterMap f).flatMap GraphData.nodes,
         ((toBatches chunks).filterMap f).flatMap GraphData.relationships) :=
  ⟨toBatches_flatten chunks, fun bt hb => toBatches_mem_spec chunks bt hb,
   fun i h => toBatches_getD_length chunks i h, runBatches_eq f chunks⟩

/-- Witness for C4 on a 7-chunk list: the trailing 2-chunk batch is a
nonempty batch of size at most 5, and the first batch has size exactly 5. -/
theorem extraction_batches_spec_witness :
    (([{ pageContent := "6" }, { pageContent := "7" }] : List ChunkDoc) ≠ []
      ∧ ([{ pageContent := "6" }, { pageContent := "7" }] : List ChunkDoc).length ≤ 5)
    ∧ ((toBatches ([{ pageContent := "1" }, { pageContent := "2" },
        { pageContent := "3" }, { pageContent := "4" }, { pageContent := "5" },
        { pageContent := "6" }, { pageContent := "7" }] : List ChunkDoc)).getD 0 []).length
      = 5 := by
  constructor
  · exact (extraction_batches_spec (fun _ => none)
      [{ pageContent := "1" }, { pageContent := "2" }, { pageContent := "3" },
       { pageContent := "4" }, { pageContent := "5" }, { pageContent := "6" },
       { pageContent := "7" }]).2.1
      [{ pageContent := "6" }, { pageContent := "7" }] (by decide)
  · exact (extraction_batches_spec (fun _ => none)
      [{ pageContent := "1" }, { pageContent := "2" }, { pageContent := "3" },
       { pageContent := "4" }, { pageContent := "5" }, { pageContent := "6" },
       { pageContent := "7" }]).2.2.1 0 (by decide)

end HackRx
